import Mathlib

/-
Shallow embedding of stickybath/TicTacToe (src/main.rs, src/tictactoe.rs).

Rust methods that mutate `&mut self` are modelled as functions returning the
updated value, paired with the Rust return value where there is one.
`Game::take_turn` reads positions from stdin in a retry loop; it is modelled
as a function consuming a finite script of input lines (one candidate
position per line), returning the updated game and the unconsumed script.
The Rust turn counter is an `i32` starting at 1 and only ever incremented by
accepted moves (at most 9 can be accepted), so it is modelled as `Nat`.
-/

/-- Cell enumeration from tictactoe.rs: a board cell is Empty or holds a
player's mark. -/
inductive Cell : Type where
  | Empty : Cell
  | O : Cell
  | X : Cell
deriving DecidableEq, Repr

/-- Default value of a Cell (Default impl in tictactoe.rs): Empty. -/
def Cell.defaultCell : Cell := Cell.Empty

/-- Cell::set (tictactoe.rs lines 72-83): proceed only if the cell is Empty,
then set it for value 'o' or 'x'; otherwise fail with no change.
Returns (Rust bool result, new cell value). -/
def Cell.set (c : Cell) (value : Char) : Bool × Cell :=
  match c with
  | Cell.Empty =>
    match value with
    | 'o' => (true, Cell.O)
    | 'x' => (true, Cell.X)
    | _ => (false, c)
  | _ => (false, c)

/-- Board structure from tictactoe.rs: nine named cells. -/
structure Board : Type where
  a0 : Cell
  b0 : Cell
  c0 : Cell
  a1 : Cell
  b1 : Cell
  c1 : Cell
  a2 : Cell
  b2 : Cell
  c2 : Cell
deriving DecidableEq, Repr

/-- Default Board (derived Default in tictactoe.rs): all cells Empty. -/
def Board.defaultBoard : Board :=
  ⟨Cell.Empty, Cell.Empty, Cell.Empty, Cell.Empty, Cell.Empty,
   Cell.Empty, Cell.Empty, Cell.Empty, Cell.Empty⟩

/-- Board::process_turn (tictactoe.rs lines 135-154): the player must be
exactly 'o' or 'x' and the position one of the nine labels; then the move is
delegated to Cell::set on the addressed cell. Rust's sequential `match` on
the string is rendered as an equivalent chain of string comparisons.
Returns (Rust bool result, updated board). -/
def Board.process_turn (b : Board) (player : Char) (position : String) :
    Bool × Board :=
  if player = 'o' ∨ player = 'x' then
    if position = "a0" then ((b.a0.set player).1, { b with a0 := (b.a0.set player).2 })
    else if position = "a1" then ((b.a1.set player).1, { b with a1 := (b.a1.set player).2 })
    else if position = "a2" then ((b.a2.set player).1, { b with a2 := (b.a2.set player).2 })
    else if position = "b0" then ((b.b0.set player).1, { b with b0 := (b.b0.set player).2 })
    else if position = "b1" then ((b.b1.set player).1, { b with b1 := (b.b1.set player).2 })
    else if position = "b2" then ((b.b2.set player).1, { b with b2 := (b.b2.set player).2 })
    else if position = "c0" then ((b.c0.set player).1, { b with c0 := (b.c0.set player).2 })
    else if position = "c1" then ((b.c1.set player).1, { b with c1 := (b.c1.set player).2 })
    else if position = "c2" then ((b.c2.set player).1, { b with c2 := (b.c2.set player).2 })
    else (false, b)
  else (false, b)

/-- Rust '\0', the no-winner return value of Board::get_state. -/
def nullChar : Char := Char.ofNat 0

/-- Board::get_state (tictactoe.rs lines 169-228), transcribed verbatim,
including the per-branch return characters of the source: the row-0 branch
returns 'o' for Cell::O and 'x' for Cell::X, while every other branch
returns 'x' for Cell::O and 'o' for Cell::X, exactly as written in the
source. An all-equal line of Empty cells returns '\0' immediately. -/
def Board.get_state (b : Board) : Char :=
  if b.a0 = b.b0 ∧ b.a0 = b.c0 then
    match b.a0 with
    | Cell.Empty => nullChar
    | Cell.O => 'o'
    | Cell.X => 'x'
  else if b.a1 = b.b1 ∧ b.a1 = b.c1 then
    match b.a1 with
    | Cell.Empty => nullChar
    | Cell.O => 'x'
    | Cell.X => 'o'
  else if b.a2 = b.b2 ∧ b.a2 = b.c2 then
    match b.a2 with
    | Cell.Empty => nullChar
    | Cell.O => 'x'
    | Cell.X => 'o'
  else if b.a0 = b.a1 ∧ b.a0 = b.a2 then
    match b.a0 with
    | Cell.Empty => nullChar
    | Cell.O => 'x'
    | Cell.X => 'o'
  else if b.b0 = b.b1 ∧ b.b0 = b.b2 then
    match b.b0 with
    | Cell.Empty => nullChar
    | Cell.O => 'x'
    | Cell.X => 'o'
  else if b.c0 = b.c1 ∧ b.c0 = b.c2 then
    match b.c0 with
    | Cell.Empty => nullChar
    | Cell.O => 'x'
    | Cell.X => 'o'
  else if b.a0 = b.b1 ∧ b.a0 = b.c2 then
    match b.a0 with
    | Cell.Empty => nullChar
    | Cell.O => 'x'
    | Cell.X => 'o'
  else if b.a2 = b.b1 ∧ b.a2 = b.c0 then
    match b.a2 with
    | Cell.Empty => nullChar
    | Cell.O => 'x'
    | Cell.X => 'o'
  else nullChar

/-- State enumeration from tictactoe.rs: the overall game state. -/
inductive State : Type where
  | InProgress : State
  | Stalemate : State
  | VictoryO : State
  | VictoryX : State
deriving DecidableEq, Repr

/-- Game structure from tictactoe.rs: a board, the overall state and the
turn counter. -/
structure Game : Type where
  board : Board
  state : State
  turn : Nat
deriving DecidableEq, Repr

/-- Default Game (Default impl in tictactoe.rs): empty board, InProgress,
turn 1. -/
def Game.defaultGame : Game := ⟨Board.defaultBoard, State.InProgress, 1⟩

/-- Game::get_player (tictactoe.rs lines 321-326): 'o' when turn % 2 = 0,
'x' otherwise. -/
def Game.get_player (g : Game) : Char :=
  if g.turn % 2 = 0 then 'o' else 'x'

/-- Game::set_state (tictactoe.rs lines 335-344): first map the board state
character to a victory (leaving the state alone otherwise), then, if the
turn counter exceeds 9, overwrite the state with Stalemate. -/
def Game.set_state (g : Game) : Game :=
  let g1 :=
    if g.board.get_state = 'o' then { g with state := State.VictoryO }
    else if g.board.get_state = 'x' then { g with state := State.VictoryX }
    else g
  if g1.turn > 9 then { g1 with state := State.Stalemate } else g1

/-- Game::take_turn (tictactoe.rs lines 353-371): read candidate positions
until Board::process_turn accepts one, then increment the turn counter and
call set_state. The blocking stdin loop is modelled on a finite input
script; if the script is exhausted before a move is accepted the game is
returned unchanged with the empty script. -/
def Game.take_turn : Game → List String → Game × List String
  | g, [] => (g, [])
  | g, position :: rest =>
    if (g.board.process_turn g.get_player position).1 then
      (Game.set_state
        { g with
          board := (g.board.process_turn g.get_player position).2,
          turn := g.turn + 1 },
       rest)
    else g.take_turn rest

/-- Driving loop of the engine without the caller protocol: one take_turn
invocation per listed position (each invocation is given that single input
line). -/
def Game.runMoves : Game → List String → Game
  | g, [] => g
  | g, position :: rest => Game.runMoves (g.take_turn [position]).1 rest

/-- Driving loop under the documented caller protocol (spec section 4.2):
take_turn is invoked only while the state is InProgress. -/
def Game.runProtocol : Game → List String → Game
  | g, [] => g
  | g, position :: rest =>
    if g.state = State.InProgress then
      Game.runProtocol (g.take_turn [position]).1 rest
    else g

/-- Cell addressed by a position label, `none` for a non-label string
(specification-side accessor used to state the claims; the label-to-field
mapping is that of Board::process_turn). -/
def Board.cellAt (b : Board) (position : String) : Option Cell :=
  if position = "a0" then some b.a0
  else if position = "a1" then some b.a1
  else if position = "a2" then some b.a2
  else if position = "b0" then some b.b0
  else if position = "b1" then some b.b1
  else if position = "b2" then some b.b2
  else if position = "c0" then some b.c0
  else if position = "c1" then some b.c1
  else if position = "c2" then some b.c2
  else none

/-- Board with the cell addressed by a position label replaced
(specification-side constructor used to state the claims). -/
def Board.setAt (b : Board) (position : String) (c : Cell) : Board :=
  if position = "a0" then { b with a0 := c }
  else if position = "a1" then { b with a1 := c }
  else if position = "a2" then { b with a2 := c }
  else if position = "b0" then { b with b0 := c }
  else if position = "b1" then { b with b1 := c }
  else if position = "b2" then { b with b2 := c }
  else if position = "c0" then { b with c0 := c }
  else if position = "c1" then { b with c1 := c }
  else if position = "c2" then { b with c2 := c }
  else b

/-- Mark written by a player character: Cell.O for 'o', Cell.X for 'x'
(meaningful only for the two valid players). -/
def playerMark (p : Char) : Cell := if p = 'o' then Cell.O else Cell.X

/-- Characterization of Board::process_turn, success case: a valid player
moving onto an Empty cell succeeds and writes the player's mark. -/
theorem process_turn_success (b : Board) (p : Char) (pos : String)
    (hp : p = 'o' ∨ p = 'x') (h : b.cellAt pos = some Cell.Empty) :
    b.process_turn p pos = (true, b.setAt pos (playerMark p)) := by
  by_cases h0 : pos = "a0"
  · subst h0
    have ha : b.a0 = Cell.Empty := by simpa [Board.cellAt] using h
    rcases hp with hp | hp <;> subst hp <;>
      simp [Board.process_turn, Board.setAt, ha, Cell.set, playerMark]
  by_cases h1 : pos = "a1"
  · subst h1
    have ha : b.a1 = Cell.Empty := by simpa [Board.cellAt, h0] using h
    rcases hp with hp | hp <;> subst hp <;>
      simp [Board.process_turn, Board.setAt, ha, Cell.set, playerMark]
  by_cases h2 : pos = "a2"
  · subst h2
    have ha : b.a2 = Cell.Empty := by simpa [Board.cellAt, h0, h1] using h
    rcases hp with hp | hp <;> subst hp <;>
      simp [Board.process_turn, Board.setAt, ha, Cell.set, playerMark]
  by_cases h3 : pos = "b0"
  · subst h3
    have ha : b.b0 = Cell.Empty := by simpa [Board.cellAt, h0, h1, h2] using h
    rcases hp with hp | hp <;> subst hp <;>
      simp [Board.process_turn, Board.setAt, ha, Cell.set, playerMark]
  by_cases h4 : pos = "b1"
  · subst h4
    have ha : b.b1 = Cell.Empty := by simpa [Board.cellAt, h0, h1, h2, h3] using h
    rcases hp with hp | hp <;> subst hp <;>
      simp [Board.process_turn, Board.setAt, ha, Cell.set, playerMark]
  by_cases h5 : pos = "b2"
  · subst h5
    have ha : b.b2 = Cell.Empty := by simpa [Board.cellAt, h0, h1, h2, h3, h4] using h
    rcases hp with hp | hp <;> subst hp <;>
      simp [Board.process_turn, Board.setAt, ha, Cell.set, playerMark]
  by_cases h6 : pos = "c0"
  · subst h6
    have ha : b.c0 = Cell.Empty := by simpa [Board.cellAt, h0, h1, h2, h3, h4, h5] using h
    rcases hp with hp | hp <;> subst hp <;>
      simp [Board.process_turn, Board.setAt, ha, Cell.set, playerMark]
  by_cases h7 : pos = "c1"
  · subst h7
    have ha : b.c1 = Cell.Empty := by simpa [Board.cellAt, h0, h1, h2, h3, h4, h5, h6] using h
    rcases hp with hp | hp <;> subst hp <;>
      simp [Board.process_turn, Board.setAt, ha, Cell.set, playerMark]
  by_cases h8 : pos = "c2"
  · subst h8
    have ha : b.c2 = Cell.Empty := by simpa [Board.cellAt, h0, h1, h2, h3, h4, h5, h6, h7] using h
    rcases hp with hp | hp <;> subst hp <;>
      simp [Board.process_turn, Board.setAt, ha, Cell.set, playerMark]
  · exact absurd h (by simp [Board.cellAt, h0, h1, h2, h3, h4, h5, h6, h7, h8])

/-- Characterization of Board::process_turn, failure case: with an invalid
player, an invalid position, or an occupied target cell, the move fails and
the board is returned unchanged. -/
theorem process_turn_fail (b : Board) (p : Char) (pos : String)
    (h : ¬ ((p = 'o' ∨ p = 'x') ∧ b.cellAt pos = some Cell.Empty)) :
    b.process_turn p pos = (false, b) := by
  obtain ⟨a0, b0, c0, a1, b1, c1, a2, b2, c2⟩ := b
  by_cases hp : p = 'o' ∨ p = 'x'
  · have hcell :
        ¬ Board.cellAt ⟨a0, b0, c0, a1, b1, c1, a2, b2, c2⟩ pos = some Cell.Empty :=
      fun hc => h ⟨hp, hc⟩
    by_cases h0 : pos = "a0"
    · subst h0
      have ha : a0 ≠ Cell.Empty := by simpa [Board.cellAt] using hcell
      cases a0 <;> simp_all [Board.process_turn, Cell.set]
    by_cases h1 : pos = "a1"
    · subst h1
      have ha : a1 ≠ Cell.Empty := by simpa [Board.cellAt, h0] using hcell
      cases a1 <;> simp_all [Board.process_turn, Cell.set]
    by_cases h2 : pos = "a2"
    · subst h2
      have ha : a2 ≠ Cell.Empty := by simpa [Board.cellAt, h0, h1] using hcell
      cases a2 <;> simp_all [Board.process_turn, Cell.set]
    by_cases h3 : pos = "b0"
    · subst h3
      have ha : b0 ≠ Cell.Empty := by simpa [Board.cellAt, h0, h1, h2] using hcell
      cases b0 <;> simp_all [Board.process_turn, Cell.set]
    by_cases h4 : pos = "b1"
    · subst h4
      have ha : b1 ≠ Cell.Empty := by simpa [Board.cellAt, h0, h1, h2, h3] using hcell
      cases b1 <;> simp_all [Board.process_turn, Cell.set]
    by_cases h5 : pos = "b2"
    · subst h5
      have ha : b2 ≠ Cell.Empty := by simpa [Board.cellAt, h0, h1, h2, h3, h4] using hcell
      cases b2 <;> simp_all [Board.process_turn, Cell.set]
    by_cases h6 : pos = "c0"
    · subst h6
      have ha : c0 ≠ Cell.Empty := by simpa [Board.cellAt, h0, h1, h2, h3, h4, h5] using hcell
      cases c0 <;> simp_all [Board.process_turn, Cell.set]
    by_cases h7 : pos = "c1"
    · subst h7
      have ha : c1 ≠ Cell.Empty := by simpa [Board.cellAt, h0, h1, h2, h3, h4, h5, h6] using hcell
      cases c1 <;> simp_all [Board.process_turn, Cell.set]
    by_cases h8 : pos = "c2"
    · subst h8
      have ha : c2 ≠ Cell.Empty := by simpa [Board.cellAt, h0, h1, h2, h3, h4, h5, h6, h7] using hcell
      cases c2 <;> simp_all [Board.process_turn, Cell.set]
    · unfold Board.process_turn
      simp [hp, h0, h1, h2, h3, h4, h5, h6, h7, h8]
  · unfold Board.process_turn
    simp [hp]

/-- Writing through setAt at a label that cellAt addresses makes that label
read back the written mark. -/
theorem cellAt_setAt_self (b : Board) (pos : String) (m c : Cell)
    (h : b.cellAt pos = some c) :
    (b.setAt pos m).cellAt pos = some m := by
  by_cases h0 : pos = "a0"
  · subst h0
    simp only [Board.setAt, Board.cellAt]
    simp
  by_cases h1 : pos = "a1"
  · subst h1
    simp only [Board.setAt, Board.cellAt]
    simp
  by_cases h2 : pos = "a2"
  · subst h2
    simp only [Board.setAt, Board.cellAt]
    simp
  by_cases h3 : pos = "b0"
  · subst h3
    simp only [Board.setAt, Board.cellAt]
    simp
  by_cases h4 : pos = "b1"
  · subst h4
    simp only [Board.setAt, Board.cellAt]
    simp
  by_cases h5 : pos = "b2"
  · subst h5
    simp only [Board.setAt, Board.cellAt]
    simp
  by_cases h6 : pos = "c0"
  · subst h6
    simp only [Board.setAt, Board.cellAt]
    simp
  by_cases h7 : pos = "c1"
  · subst h7
    simp only [Board.setAt, Board.cellAt]
    simp
  by_cases h8 : pos = "c2"
  · subst h8
    simp only [Board.setAt, Board.cellAt]
    simp
  · exact absurd h (by simp [Board.cellAt, h0, h1, h2, h3, h4, h5, h6, h7, h8])

/-- Writing through setAt leaves the cell at every other label unchanged. -/
theorem cellAt_setAt_ne (b : Board) (pos pos2 : String) (m : Cell)
    (hne : pos ≠ pos2) :
    (b.setAt pos m).cellAt pos2 = b.cellAt pos2 := by
  by_cases h0 : pos = "a0"
  · subst h0
    simp only [Board.setAt, Board.cellAt]
    have hq : ¬ (pos2 = "a0") := fun hq => hne hq.symm
    simp [hq]
  by_cases h1 : pos = "a1"
  · subst h1
    simp only [Board.setAt, Board.cellAt]
    have hq : ¬ (pos2 = "a1") := fun hq => hne hq.symm
    simp [hq]
  by_cases h2 : pos = "a2"
  · subst h2
    simp only [Board.setAt, Board.cellAt]
    have hq : ¬ (pos2 = "a2") := fun hq => hne hq.symm
    simp [hq]
  by_cases h3 : pos = "b0"
  · subst h3
    simp only [Board.setAt, Board.cellAt]
    have hq : ¬ (pos2 = "b0") := fun hq => hne hq.symm
    simp [hq]
  by_cases h4 : pos = "b1"
  · subst h4
    simp only [Board.setAt, Board.cellAt]
    have hq : ¬ (pos2 = "b1") := fun hq => hne hq.symm
    simp [hq]
  by_cases h5 : pos = "b2"
  · subst h5
    simp only [Board.setAt, Board.cellAt]
    have hq : ¬ (pos2 = "b2") := fun hq => hne hq.symm
    simp [hq]
  by_cases h6 : pos = "c0"
  · subst h6
    simp only [Board.setAt, Board.cellAt]
    have hq : ¬ (pos2 = "c0") := fun hq => hne hq.symm
    simp [hq]
  by_cases h7 : pos = "c1"
  · subst h7
    simp only [Board.setAt, Board.cellAt]
    have hq : ¬ (pos2 = "c1") := fun hq => hne hq.symm
    simp [hq]
  by_cases h8 : pos = "c2"
  · subst h8
    simp only [Board.setAt, Board.cellAt]
    have hq : ¬ (pos2 = "c2") := fun hq => hne hq.symm
    simp [hq]
  · unfold Board.setAt
    simp [h0, h1, h2, h3, h4, h5, h6, h7, h8]

/-- playerMark always produces a real mark, never Empty. -/
theorem playerMark_ne_empty (p : Char) : playerMark p ≠ Cell.Empty := by
  unfold playerMark
  split_ifs <;> simp

/-- C1: the claim states that for every board in which exactly one winning
line is fully marked with a single non-Empty mark, Board.get_state returns
that same mark, for each of the 8 lines individually. The code disagrees:
for a board whose only non-Empty cells are column a filled with X,
get_state returns 'o' (the swapped return character of the column-a
branch), and for a board whose only non-Empty cells are row 2 filled with
X, get_state returns '\0' (the all-Empty row 0 is the first all-equal line
and forces an immediate no-winner return), contradicting get_state's own
documentation that 'o' means player o wins and 'x' means player x wins. -/
theorem c1_winning_line_swapped_eval :
    Board.get_state
        ⟨Cell.X, Cell.Empty, Cell.Empty, Cell.X, Cell.Empty, Cell.Empty,
         Cell.X, Cell.Empty, Cell.Empty⟩ = 'o'
  ∧ Board.get_state
        ⟨Cell.Empty, Cell.Empty, Cell.Empty, Cell.Empty, Cell.Empty,
         Cell.Empty, Cell.X, Cell.X, Cell.X⟩ = nullChar
  ∧ ('o' ≠ 'x' ∧ nullChar ≠ 'x') := by decide

/-- C2 counterexample: the claim states that win detection takes precedence
over the turn-count ceiling, so a winning 9th move yields a victory. In the
code the stalemate overwrite comes last: after the 9 accepted moves
X a0, O b0, X c1, O c0, X a2, O a1, X b2, O b1, X c2 (X completes row 2 on
the 9th move and the board's terminal check returns a winner character),
the final state is Stalemate, not a victory. -/
theorem c2_winning_ninth_move_stalemate :
    (Game.runMoves Game.defaultGame
        ["a0", "b0", "c1", "c0", "a2", "a1", "b2", "b1", "c2"]).board.get_state = 'o'
  ∧ (Game.runMoves Game.defaultGame
        ["a0", "b0", "c1", "c0", "a2", "a1", "b2", "b1", "c2"]).state = State.Stalemate
  ∧ State.Stalemate ≠ State.VictoryO ∧ State.Stalemate ≠ State.VictoryX := by decide

/-- C2 amended: Game.set_state first maps the board's terminal character to
the corresponding victory, but the turn-count ceiling takes precedence: if
the turn counter exceeds 9 the state is overwritten with Stalemate
regardless of the terminal check, so a winning 9th move yields Stalemate;
only when the turn counter is at most 9 does a terminal character decide a
victory, and without a terminal character the state is left unchanged. -/
theorem c2_set_state_stalemate_precedence (g : Game) :
    (9 < g.turn → (Game.set_state g).state = State.Stalemate)
  ∧ (g.turn ≤ 9 →
      (g.board.get_state = 'o' → (Game.set_state g).state = State.VictoryO)
    ∧ (g.board.get_state = 'x' → (Game.set_state g).state = State.VictoryX)
    ∧ (g.board.get_state ≠ 'o' → g.board.get_state ≠ 'x' →
        (Game.set_state g).state = g.state)) := by
  obtain ⟨b, s, t⟩ := g
  unfold Game.set_state
  by_cases h1 : b.get_state = 'o' <;> by_cases h2 : b.get_state = 'x' <;>
    by_cases h3 : 9 < t <;>
      simp_all [Nat.not_lt]
  · rw [if_neg (by omega : ¬ 9 < t)]
  · rw [if_neg (by omega : ¬ 9 < t)]
  · rw [if_neg (by omega : ¬ 9 < t)]

theorem c2_set_state_stalemate_precedence_witness :
    9 < (Game.mk Board.defaultBoard State.InProgress 10).turn
  ∧ (Game.set_state (Game.mk Board.defaultBoard State.InProgress 10)).state
      = State.Stalemate :=
  ⟨by decide,
   (c2_set_state_stalemate_precedence
      (Game.mk Board.defaultBoard State.InProgress 10)).1 (by decide)⟩

/-- C3 counterexample: the claim states GameState never changes once
terminal for any further take_turn invocation. In the code, after the five
accepted moves X a0, O b0, X a1, O b1, X a2 the state is terminal
(VictoryO, column a being all X), yet four further take_turn invocations
(O c0, X c1, O c2, X b2) push the turn counter past 9 and overwrite the
state with Stalemate. -/
theorem c3_victory_overwritten :
    (Game.runMoves Game.defaultGame ["a0", "b0", "a1", "b1", "a2"]).state
      = State.VictoryO
  ∧ (Game.runMoves (Game.runMoves Game.defaultGame ["a0", "b0", "a1", "b1", "a2"])
        ["c0", "c1", "c2", "b2"]).state = State.Stalemate
  ∧ State.VictoryO ≠ State.Stalemate := by decide

/-- C3 amended: GameState is monotonic only under the documented caller
protocol, which invokes take_turn solely while the state is InProgress:
once the state is terminal the protocol-respecting driver performs no
further engine step, so the state never changes; an out-of-protocol
take_turn invocation can still overwrite a victory with Stalemate once the
turn counter exceeds 9. -/
theorem c3_protocol_monotonic (g : Game) (script : List String)
    (h : g.state ≠ State.InProgress) :
    (Game.runProtocol g script).state = g.state := by
  cases script with
  | nil => rfl
  | cons position rest => simp [Game.runProtocol, h]

theorem c3_protocol_monotonic_witness :
    (Game.mk Board.defaultBoard State.VictoryX 6).state ≠ State.InProgress
  ∧ (Game.runProtocol (Game.mk Board.defaultBoard State.VictoryX 6)
        ["a0", "b0"]).state
      = (Game.mk Board.defaultBoard State.VictoryX 6).state :=
  ⟨by decide,
   c3_protocol_monotonic (Game.mk Board.defaultBoard State.VictoryX 6)
     ["a0", "b0"] (by decide)⟩

/-- C4: Board.process_turn returns true and writes the matching mark to the
target cell when the player is 'o' or 'x', the position is one of the 9
labels (cellAt finds a cell) and that cell is Empty; in every other case it
returns false and leaves the whole board unchanged. -/
theorem c4_process_turn_contract (b : Board) (p : Char) (pos : String) :
    ((p = 'o' ∨ p = 'x') → b.cellAt pos = some Cell.Empty →
      b.process_turn p pos = (true, b.setAt pos (playerMark p)))
  ∧ (¬ ((p = 'o' ∨ p = 'x') ∧ b.cellAt pos = some Cell.Empty) →
      b.process_turn p pos = (false, b)) :=
  ⟨fun hp h => process_turn_success b p pos hp h,
   fun h => process_turn_fail b p pos h⟩

theorem c4_process_turn_contract_witness :
    (('x' = 'o' ∨ 'x' = 'x') ∧ Board.defaultBoard.cellAt "b1" = some Cell.Empty)
  ∧ Board.defaultBoard.process_turn 'x' "b1"
      = (true, Board.defaultBoard.setAt "b1" (playerMark 'x'))
  ∧ Board.defaultBoard.process_turn 'q' "b1" = (false, Board.defaultBoard) :=
  ⟨⟨by decide, by decide⟩,
   (c4_process_turn_contract Board.defaultBoard 'x' "b1").1 (by decide) (by decide),
   (c4_process_turn_contract Board.defaultBoard 'q' "b1").2 (by decide)⟩

/-- C5: Game.get_player is X exactly on odd turn counters and O exactly on
even ones, for every turn counter value of at least 1 (the counter starts
at 1 and is only incremented); in particular X moves first on turn 1. -/
theorem c5_get_player_parity :
    (∀ g : Game, 1 ≤ g.turn →
      ((g.get_player = 'x' ↔ g.turn % 2 = 1)
     ∧ (g.get_player = 'o' ↔ g.turn % 2 = 0)))
  ∧ Game.defaultGame.get_player = 'x' := by
  constructor
  · intro g _
    unfold Game.get_player
    rcases Nat.mod_two_eq_zero_or_one g.turn with h | h <;> simp [h]
  · decide

theorem c5_get_player_parity_witness :
    1 ≤ Game.defaultGame.turn
  ∧ (Game.defaultGame.get_player = 'x' ↔ Game.defaultGame.turn % 2 = 1) :=
  ⟨by decide, (c5_get_player_parity.1 Game.defaultGame (by decide)).1⟩

/-- C6: the claim states that scenario A (X a0, O b0, X a1, O b1, X a2)
ends with VictoryX after the 5th accepted move with turn counter 6. The
code disagrees on the winner: column a is all X, but the column-a branch of
Board.get_state returns 'o' for an all-X line, so the final state is
VictoryO, not VictoryX; the turn counter is 6 as claimed. -/
theorem c6_scenario_a_eval :
    (Game.runMoves Game.defaultGame ["a0", "b0", "a1", "b1", "a2"]).turn = 6
  ∧ (Game.runMoves Game.defaultGame ["a0", "b0", "a1", "b1", "a2"]).state
      = State.VictoryO
  ∧ State.VictoryO ≠ State.VictoryX := by decide

/-- C7 counterexample: the claim states scenario B (X on a0, b1, c0, a2, b2
and O on b0, a1, c1, c2) never produces a victory state. The X cells
contain the full anti-diagonal a2, b1, c0, so after the 7th accepted move
(X a2) the state is VictoryO: a victory state is produced. -/
theorem c7_transient_victory :
    (Game.runMoves Game.defaultGame
        ["a0", "b0", "b1", "a1", "c0", "c1", "a2"]).state = State.VictoryO
  ∧ State.VictoryO ≠ State.Stalemate ∧ State.VictoryO ≠ State.InProgress := by decide

/-- C7 amended: playing all 9 alternating moves of scenario B does end with
GameState = Stalemate (the turn counter exceeding 9 overwrites the state),
but a victory state is produced along the way: the X cells include the
anti-diagonal a2-b1-c0, so after the 7th accepted move the state is
VictoryO until the stalemate overwrite of the 9th move masks it. -/
theorem c7_scenario_b_amended :
    (Game.runMoves Game.defaultGame
        ["a0", "b0", "b1", "a1", "c0", "c1", "a2", "c2", "b2"]).state
      = State.Stalemate
  ∧ (Game.runMoves Game.defaultGame
        ["a0", "b0", "b1", "a1", "c0", "c1", "a2"]).state = State.VictoryO := by decide

/-- C8: cells are write-once. A first move by a valid player onto an Empty
cell succeeds and writes that player's mark; a second move to the same
position by either player fails and leaves the whole board (that cell
included) unchanged; and a process_turn call with any arguments never
changes a cell that already holds a non-Empty mark. -/
theorem c8_cell_write_once :
    (∀ (b : Board) (pos : String) (p1 p2 : Char),
      (p1 = 'o' ∨ p1 = 'x') → (p2 = 'o' ∨ p2 = 'x') →
      b.cellAt pos = some Cell.Empty →
        (b.process_turn p1 pos).1 = true
      ∧ ((b.process_turn p1 pos).2).cellAt pos = some (playerMark p1)
      ∧ (((b.process_turn p1 pos).2).process_turn p2 pos).1 = false
      ∧ (((b.process_turn p1 pos).2).process_turn p2 pos).2
          = (b.process_turn p1 pos).2)
  ∧ (∀ (b : Board) (p : Char) (pos pos2 : String) (c : Cell),
      b.cellAt pos2 = some c → c ≠ Cell.Empty →
        ((b.process_turn p pos).2).cellAt pos2 = some c) := by
  constructor
  · intro b pos p1 p2 hp1 hp2 hempty
    rw [process_turn_success b p1 pos hp1 hempty]
    have hread : (b.setAt pos (playerMark p1)).cellAt pos = some (playerMark p1) :=
      cellAt_setAt_self b pos (playerMark p1) Cell.Empty hempty
    have hfail :
        (b.setAt pos (playerMark p1)).process_turn p2 pos
          = (false, b.setAt pos (playerMark p1)) := by
      refine process_turn_fail _ p2 pos fun hc => ?_
      rw [hread] at hc
      exact playerMark_ne_empty p1 (Option.some.injEq _ _ ▸ hc.2)
    exact ⟨rfl, hread, by rw [hfail], by rw [hfail]⟩
  · intro b p pos pos2 c hc hne
    by_cases hv : (p = 'o' ∨ p = 'x') ∧ b.cellAt pos = some Cell.Empty
    · rw [process_turn_success b p pos hv.1 hv.2]
      by_cases he : pos = pos2
      · subst he
        rw [hv.2] at hc
        exact absurd (Option.some.injEq _ _ ▸ hc).symm hne
      · rw [cellAt_setAt_ne b pos pos2 (playerMark p) he]
        exact hc
    · rw [process_turn_fail b p pos hv]
      exact hc

theorem c8_cell_write_once_witness :
    (('o' = 'o' ∨ 'o' = 'x') ∧ ('x' = 'o' ∨ 'x' = 'x')
      ∧ Board.defaultBoard.cellAt "c2" = some Cell.Empty)
  ∧ (Board.defaultBoard.process_turn 'o' "c2").1 = true
  ∧ (((Board.defaultBoard.process_turn 'o' "c2").2).process_turn 'x' "c2").1 = false :=
  ⟨⟨by decide, by decide, by decide⟩,
   (c8_cell_write_once.1 Board.defaultBoard "c2" 'o' 'x'
      (by decide) (by decide) (by decide)).1,
   (c8_cell_write_once.1 Board.defaultBoard "c2" 'o' 'x'
      (by decide) (by decide) (by decide)).2.2.1⟩

/-- C9: in Board.get_state an all-equal line is the first match even when
its three cells are all Empty: whenever row 0 is entirely Empty, get_state
returns the no-winner character immediately, whatever the other six cells
hold; in particular the board whose only non-Empty cells are row 2 filled
with O has a fully marked winning line yet get_state reports no winner. -/
theorem c9_empty_line_masks :
    (∀ b : Board, b.a0 = Cell.Empty → b.b0 = Cell.Empty → b.c0 = Cell.Empty →
      b.get_state = nullChar)
  ∧ Board.get_state
      ⟨Cell.Empty, Cell.Empty, Cell.Empty, Cell.Empty, Cell.Empty,
       Cell.Empty, Cell.O, Cell.O, Cell.O⟩ = nullChar := by
  constructor
  · intro b h1 h2 h3
    unfold Board.get_state
    simp [h1, h2, h3]
  · decide

theorem c9_empty_line_masks_witness :
    ((Board.mk Cell.Empty Cell.Empty Cell.Empty Cell.Empty Cell.Empty
        Cell.Empty Cell.O Cell.O Cell.O).a0 = Cell.Empty
      ∧ (Board.mk Cell.Empty Cell.Empty Cell.Empty Cell.Empty Cell.Empty
          Cell.Empty Cell.O Cell.O Cell.O).b0 = Cell.Empty)
  ∧ (Board.mk Cell.Empty Cell.Empty Cell.Empty Cell.Empty Cell.Empty
      Cell.Empty Cell.O Cell.O Cell.O).get_state = nullChar :=
  ⟨⟨by decide, by decide⟩,
   c9_empty_line_masks.1
     (Board.mk Cell.Empty Cell.Empty Cell.Empty Cell.Empty Cell.Empty
       Cell.Empty Cell.O Cell.O Cell.O) (by decide) (by decide) (by decide)⟩

/-- C10: Board imposes no turn-alternation constraint: for every board
(whatever history produced it) a move by either valid player onto any Empty
cell is accepted; in particular the three consecutive 'x' moves of main.rs
(a0, then b1, then c2, with no intervening 'o' move) all succeed on the
default board. -/
theorem c10_board_no_alternation :
    (∀ (b : Board) (p : Char) (pos : String),
      (p = 'o' ∨ p = 'x') → b.cellAt pos = some Cell.Empty →
        (b.process_turn p pos).1 = true)
  ∧ ((Board.defaultBoard.process_turn 'x' "a0").1 = true
    ∧ (((Board.defaultBoard.process_turn 'x' "a0").2).process_turn 'x' "b1").1 = true
    ∧ ((((Board.defaultBoard.process_turn 'x' "a0").2).process_turn
          'x' "b1").2.process_turn 'x' "c2").1 = true) := by
  constructor
  · intro b p pos hp h
    rw [process_turn_success b p pos hp h]
  · exact ⟨by decide, by decide, by decide⟩

theorem c10_board_no_alternation_witness :
    (('x' = 'o' ∨ 'x' = 'x')
      ∧ ((Board.defaultBoard.process_turn 'x' "a0").2).cellAt "a1"
          = some Cell.Empty)
  ∧ (((Board.defaultBoard.process_turn 'x' "a0").2).process_turn 'x' "a1").1
      = true :=
  ⟨⟨by decide, by decide⟩,
   c10_board_no_alternation.1 ((Board.defaultBoard.process_turn 'x' "a0").2)
     'x' "a1" (by decide) (by decide)⟩
